import Mathlib

set_option maxHeartbeats 1000000

/-!
Shallow embedding of the marian optimizer core (`src/optimizers/optimizers.h`
and the optimizer implementation file): the `OptimizerBase::update`
orchestration, the Sgd / Adagrad / Adam update rules, the positional
hyper-parameter setters, and the checkpoint save/load protocol.

Numeric values are modelled over `ℚ` (machine floating point treated as exact
arithmetic, as the spec's algebra does); the elementwise `sqrt` primitive lives
in the tensor-operator layer that is not part of the provided sources, so it is
passed in as an explicit function parameter.  The device/tensor layer is
modelled by descriptors carrying an identity, an element type and an element
count; the data-flow of `update()` is captured as a trace of events.
-/

/-- Element types of tensors (the subset relevant to the optimizer core). -/
inductive NumTy
  | float16
  | float32
  | float64
deriving DecidableEq, Repr

/-- Byte width of an element type (`sizeOf` in the sources). -/
def sizeOfTy : NumTy → Nat
  | .float16 => 2
  | .float32 => 4
  | .float64 => 8

/-- Descriptor of a tensor argument: identity of the underlying buffer,
element type and element count (`params->type()`, `params->size()`). -/
structure TensorDesc where
  tid : Nat
  ty : NumTy
  size : Nat
deriving DecidableEq, Repr

/-- A buffer reference: either a sub-buffer of the optimizer's shadow arena
(at a byte offset) or an external tensor (`pm_ = params` style aliasing). -/
inductive BufRef
  | arena (offset : Nat)
  | ext (tid : Nat)
deriving DecidableEq, Repr

/-- Observable operations performed by one `OptimizerBase::update` call, in
program order. -/
inductive UEvent
  | reserve (bytes : Nat)
  | allocAvg (dst : BufRef)
  | allocPm (dst : BufRef)
  | allocGd (dst : BufRef)
  | copyCastPmInit (dst : BufRef) (src : Nat)
  | copyCastGd (dst : BufRef) (src : Nat)
  | scale (dst : BufRef)
  | clip (dst : BufRef)
  | runUpdate (pm gd : BufRef) (actualMBSize refMBWords : Nat)
  | updateAvg (dst : BufRef)
  | castBack (dstParams : Nat) (src : BufRef)
  | sync
deriving DecidableEq, Repr

/-- Per-instance configuration of `OptimizerBase` fixed at construction:
`refMBWordsParam_`, `mvAvg_`, `costScale_`, whether `clipper_` is set, and
`optimizerType_`. -/
structure OConfig where
  refMBWordsParam : Nat
  mvAvg : Bool
  costScale : ℚ
  hasClipper : Bool
  optimizerType : NumTy
deriving DecidableEq, Repr

/-- Mutable orchestration state of `OptimizerBase`: the shadow arena
(`optAlloc_`, modelled as its reserved capacity in bytes plus the bytes already
carved out) and the `avg_`, `pm_`, `gd_` buffer members. -/
structure OState where
  optAlloc : Option Nat
  allocUsed : Nat
  avg : Option BufRef
  pm : Option BufRef
  gd : Option BufRef
deriving DecidableEq, Repr

/-- Freshly constructed optimizer: all buffers null. -/
def initOState : OState := ⟨none, 0, none, none, none⟩

/-- `OptimizerBase::mbSizeNotProvided = SIZE_MAX`. -/
def mbSizeNotProvided : Nat := 2 ^ 64 - 1

/-- Result of an `update()` call: normal return with the new orchestration
state and the event trace, or a fatal `ABORT` carrying the trace of events
that happened before the abort. -/
inductive URes
  | ok (st : OState) (tr : List UEvent)
  | abort (msg : String) (tr : List UEvent)
deriving DecidableEq, Repr

/-- Events performed by a call, whether or not it aborted. -/
def uresTrace : URes → List UEvent
  | .ok _ tr => tr
  | .abort _ tr => tr

/-- The post-state of a call that returned normally. -/
def uresState? : URes → Option OState
  | .ok st _ => some st
  | .abort _ _ => none

/-- Whether the call returned normally. -/
def uresOk : URes → Bool
  | .ok _ _ => true
  | .abort _ _ => false

/-- Sequencing of two traced computations; an abort stops the run and keeps
the events that already happened. -/
def andThen (r : URes) (f : OState → URes) : URes :=
  match r with
  | .ok st tr =>
    match f st with
    | .ok st' tr' => .ok st' (tr ++ tr')
    | .abort m tr' => .abort m (tr ++ tr')
  | .abort m tr => .abort m tr

/-- Modelled from the spec: `TensorAllocator::allocate`
(`tensors/tensor_allocator.h` is not among the provided sources).  Per the
spec the arena "owns one contiguous memory reservation sized exactly for a
given allocation regime" and "never grows after first reservation", so carving
a sub-buffer past the reserved capacity is an invariant violation.  Returns
the sub-buffer at the current fill offset. -/
def arenaAllocate (st : OState) (bytes : Nat) : Except String (OState × BufRef) :=
  match st.optAlloc with
  | none => .error "allocate without reserve"
  | some cap =>
    if st.allocUsed + bytes ≤ cap then
      .ok ({ st with allocUsed := st.allocUsed + bytes }, .arena st.allocUsed)
    else
      .error "arena capacity exceeded"

/-- Reserve of the shadow arena plus carving of `avg_`, performed by the
moving-average block on the very first call (`!optAlloc_`). -/
def mvAvgAlloc (cap bytes : Nat) (st : OState) : URes :=
  match arenaAllocate { st with optAlloc := some cap } bytes with
  | .error m => .abort m [UEvent.reserve cap]
  | .ok (st2, r) => .ok { st2 with avg := some r } [UEvent.reserve cap, UEvent.allocAvg r]

/-- The moving-average block of `OptimizerBase::update`: on the first call
with smoothing enabled, reserve the arena (3 shards when casting, else 1) and
carve out `avg_`. -/
def mvAvgBlock (cfg : OConfig) (elements : Nat) (castOpt : Bool) (st : OState) : URes :=
  if cfg.mvAvg then
    match st.optAlloc with
    | none =>
      mvAvgAlloc ((if castOpt then 3 else 1) * elements * sizeOfTy cfg.optimizerType)
        (elements * sizeOfTy cfg.optimizerType) st
    | some _ => .ok st []
  else .ok st []

/-- First-use carving of `pm_` and `gd_` from the arena, the conversion of the
parameters into the master copy, and the per-call conversion of the
gradients. -/
def castAlloc (bytes paramsId gradsId : Nat) (stR : OState) (trR : List UEvent) : URes :=
  match arenaAllocate stR bytes with
  | .error m => .abort m trR
  | .ok (stP, pmR) =>
    match arenaAllocate stP bytes with
    | .error m => .abort m (trR ++ [UEvent.allocPm pmR])
    | .ok (stG, gdR) =>
      .ok { stG with pm := some pmR, gd := some gdR }
        (trR ++ [UEvent.allocPm pmR, UEvent.allocGd gdR,
                 UEvent.copyCastPmInit pmR paramsId,
                 UEvent.copyCastGd gdR gradsId])

/-- The part of the cast branch after the conditional reservation: carve and
initialize on first use (`!pm_`), else only refresh the cast gradient
buffer. -/
def castBlockCore (bytes paramsId gradsId : Nat) (stR : OState) (trR : List UEvent) : URes :=
  match stR.pm with
  | none => castAlloc bytes paramsId gradsId stR trR
  | some _ => .ok stR (trR ++ [UEvent.copyCastGd (stR.gd.getD (BufRef.ext 0)) gradsId])

/-- The precision-cast block of `OptimizerBase::update`: when casting, reserve
the arena for 2 shards if still unreserved, carve out `pm_`/`gd_` on first use
(initializing the master copy from `params`), and refresh the cast gradient
buffer every call; without casting, `pm_`/`gd_` alias the inputs. -/
def castBlock (cfg : OConfig) (elements : Nat) (castOpt : Bool)
    (params grads : TensorDesc) (st : OState) : URes :=
  if castOpt then
    match st.optAlloc with
    | none =>
      castBlockCore (elements * sizeOfTy cfg.optimizerType) params.tid grads.tid
        { st with optAlloc := some (2 * elements * sizeOfTy cfg.optimizerType) }
        [UEvent.reserve (2 * elements * sizeOfTy cfg.optimizerType)]
    | some _ =>
      castBlockCore (elements * sizeOfTy cfg.optimizerType) params.tid grads.tid st []
  else
    .ok { st with pm := some (BufRef.ext params.tid), gd := some (BufRef.ext grads.tid) } []

/-- The tail of one `update()` call after buffers are in place: reverse
cost-scaling of the cast gradient buffer, norm clipping of the original
gradient tensor, the rule invocation `updateImpl(pm_, gd_, mbSize,
refMBWords)`, the moving-average blend, the cast back, and the backend
synchronization, in program order. -/
def updateTail (cfg : OConfig) (castOpt : Bool) (pmRef gdRef avgRef : BufRef)
    (paramsId gradsId mbSize refMBWords : Nat) : List UEvent :=
  (if cfg.costScale ≠ 1 then [UEvent.scale gdRef] else [])
    ++ (if cfg.hasClipper then [UEvent.clip (BufRef.ext gradsId)] else [])
    ++ [UEvent.runUpdate pmRef gdRef mbSize refMBWords]
    ++ (if cfg.mvAvg then [UEvent.updateAvg avgRef] else [])
    ++ (if castOpt then [UEvent.castBack paramsId pmRef] else [])
    ++ [UEvent.sync]

/-- The body of `update()` after the minibatch-size handling: the two
allocation/cast blocks followed by the preprocessing/rule/averaging tail. -/
def updateCore (cfg : OConfig) (castOpt : Bool) (st0 : OState)
    (params grads : TensorDesc) (mbSize refMBWords : Nat) : URes :=
  andThen (mvAvgBlock cfg params.size castOpt st0) (fun st1 =>
    andThen (castBlock cfg params.size castOpt params grads st1) (fun st2 =>
      .ok st2 (updateTail cfg castOpt (st2.pm.getD (BufRef.ext 0))
        (st2.gd.getD (BufRef.ext 0)) (st2.avg.getD (BufRef.ext 0))
        params.tid grads.tid mbSize refMBWords)))

/-- `OptimizerBase::update(params, grads, mbSize)`: minibatch-size handling
(force both sizes to 1 when auto-adjustment is off; fatal abort on a missing
size when it is on), then the allocation, cast, preprocessing and rule steps
in the order of the source. -/
def optimizerUpdate (cfg : OConfig) (st0 : OState) (params grads : TensorDesc)
    (mbSizeArg : Nat) : URes :=
  if cfg.refMBWordsParam ≠ 0 ∧ mbSizeArg = mbSizeNotProvided then
    .abort "Using rational optimizer auto-adjustment with trainer that does not provide MB size" []
  else
    updateCore cfg (if params.ty = cfg.optimizerType then false else true) st0 params grads
      (if cfg.refMBWordsParam = 0 then 1 else mbSizeArg)
      (if cfg.refMBWordsParam = 0 then 1 else cfg.refMBWordsParam)

/-- Arguments of one `update()` call. -/
structure CallArgs where
  params : TensorDesc
  grads : TensorDesc
  mbSize : Nat
deriving DecidableEq, Repr

/-- A sequence of `update()` calls on one optimizer instance; an abort stops
the sequence (the process dies). -/
def runUpdates (cfg : OConfig) (st : OState) : List CallArgs → URes
  | [] => .ok st []
  | c :: cs => andThen (optimizerUpdate cfg st c.params c.grads c.mbSize)
      (fun st' => runUpdates cfg st' cs)

/-- Whether an event is an arena reservation. -/
def isReserve : UEvent → Bool
  | .reserve _ => true
  | _ => false

/-- Number of arena reservations in a trace. -/
def countReserves (tr : List UEvent) : Nat := tr.countP isReserve

/-! ## Elementwise helpers -/

/-- Three-argument elementwise zip (the three-tensor `Element` expressions of
the sources). -/
def zipWith3 {α β γ δ : Type} (f : α → β → γ → δ) : List α → List β → List γ → List δ
  | a :: as, b :: bs, c :: cs => f a b c :: zipWith3 f as bs cs
  | _, _, _ => []

/-! ## Update rules -/

/-- `Sgd::updateImpl`: `params -= eta * grads`, elementwise; the minibatch
arguments are accepted but unused. -/
def sgdUpdateImpl (eta : ℚ) (params grads : List ℚ)
    (actualMBSize refMBWords : Nat) : List ℚ :=
  List.zipWith (fun p g => p - eta * g) params grads

/-- Mutable state of `Adagrad`: the lazily allocated running sum `gt_` and the
`eps_` member (which `updateImpl` itself overwrites with the floored value). -/
structure AdagradState where
  gt : Option (List ℚ)
  eps : ℚ
deriving DecidableEq, Repr

/-- `Adagrad` construction-time state with the default `eps_ = 1e-8`. -/
def adagradInit : AdagradState := ⟨none, 1 / 100000000⟩

/-- `Adagrad::updateImpl`: fatal abort unless `actualMBSize == refMBWords`;
lazily zero-allocate `gt_`; `gt += grads²`; floor `eps_` to twice the numeric
type's minimum; `params -= eta/(sqrt(gt)+eps) * grads`.  `sqrtQ` is the
elementwise square root of the (unprovided) tensor-operator layer and
`typeMin` the value `NumericLimits<float>(params->type()).min`. -/
def adagradUpdateImpl (sqrtQ : ℚ → ℚ) (eta typeMin : ℚ) (s : AdagradState)
    (params grads : List ℚ) (actualMBSize refMBWords : Nat) :
    Except String (AdagradState × List ℚ) :=
  if actualMBSize ≠ refMBWords then
    .error "Adagrad does not support rational hyper-parameter adjustment"
  else
    let gt0 := s.gt.getD (List.replicate params.length (0 : ℚ))
    let gt1 := List.zipWith (fun a g => a + g * g) gt0 grads
    let eps1 := max (typeMin * 2) s.eps
    let params1 := zipWith3 (fun p a g => p - eta / (sqrtQ a + eps1) * g) params gt1 grads
    .ok (⟨some gt1, eps1⟩, params1)

/-- Hyper-parameters of `Adam`: learning rate plus the four positional
parameters `[beta1, beta2, eps, w]` with their construction defaults. -/
structure AdamHyper where
  eta : ℚ
  beta1 : ℚ
  beta2 : ℚ
  eps : ℚ
  w : ℚ
deriving DecidableEq, Repr

/-- `Adam` construction defaults: `beta1_ = 0.9`, `beta2_ = 0.999`,
`eps_ = 1e-8`, `w_ = 0`. -/
def adamDefaults (eta : ℚ) : AdamHyper := ⟨eta, 9 / 10, 999 / 1000, 1 / 100000000, 0⟩

/-- Mutable state of `Adam`: the lazily allocated moments `mt_`, `vt_` and the
scalar bias-correction denominators `denom1_`, `denom2_`. -/
structure AdamState where
  mt : Option (List ℚ)
  vt : Option (List ℚ)
  denom1 : ℚ
  denom2 : ℚ
deriving DecidableEq, Repr

/-- `Adam` construction-time state: moments unallocated, denominators zero. -/
def adamInit : AdamState := ⟨none, none, 0, 0⟩

/-- `Adam::updateImpl`: lazily zero-allocate `mt_`/`vt_`; with `T` the actual
and `Tref` the reference minibatch size, update the denominators recursively,
the moments with the `1/T`-normalized gradients, and the parameters with the
bias-corrected normalized step plus weight decay. -/
def adamUpdateImpl (sqrtQ : ℚ → ℚ) (h : AdamHyper) (s : AdamState)
    (params grads : List ℚ) (actualMBSize refMBWords : Nat) : AdamState × List ℚ :=
  let mt0 := s.mt.getD (List.replicate params.length (0 : ℚ))
  let vt0 := s.vt.getD (List.replicate params.length (0 : ℚ))
  let T : ℚ := (actualMBSize : ℚ)
  let Tref : ℚ := (refMBWords : ℚ)
  let eta := h.eta * (T / Tref)
  let denom1 := h.beta1 * s.denom1 + (1 - h.beta1)
  let denom2 := h.beta2 * s.denom2 + (1 - h.beta2)
  let mt1 := List.zipWith (fun m g => h.beta1 * m + (1 - h.beta1) / T * g) mt0 grads
  let vt1 := List.zipWith (fun v g => h.beta2 * v + (1 - h.beta2) / T / T * (g * g)) vt0 grads
  let params1 := zipWith3
    (fun p m v => p - eta * (m / denom1 / (sqrtQ (v / denom2) + h.eps) + h.w * p))
    params mt1 vt1
  (⟨some mt1, some vt1, denom1, denom2⟩, params1)

/-! ## Positional hyper-parameter setters -/

/-- `Sgd::setParams`: the vector is ignored entirely (Sgd has no positional
hyper-parameters). -/
def sgdSetParams (s : Unit) (ps : List ℚ) : Unit := s

/-- `Adagrad::setParams`: position 0 overwrites `eps_` when present. -/
def adagradSetParams (eps : ℚ) (ps : List ℚ) : ℚ :=
  if ps.length > 0 then ps.getD 0 0 else eps

/-- `Adam::setParams`: positions 0..3 overwrite `beta1_`, `beta2_`, `eps_`,
`w_` when present; later entries are ignored. -/
def adamSetParams (h : AdamHyper) (ps : List ℚ) : AdamHyper :=
  let h1 := if ps.length > 0 then { h with beta1 := ps.getD 0 0 } else h
  let h2 := if ps.length > 1 then { h1 with beta2 := ps.getD 1 0 } else h1
  let h3 := if ps.length > 2 then { h2 with eps := ps.getD 2 0 } else h2
  if ps.length > 3 then { h3 with w := ps.getD 3 0 } else h3

/-! ## Checkpoint protocol -/

/-- One named item of the multi-item checkpoint container: name, element count
of its `{1, N}` shape, element type, payload. -/
structure IoItem where
  name : String
  shapeElements : Nat
  ty : NumTy
  data : List ℚ
deriving DecidableEq, Repr

/-- One iteration of the item loop of `Adam::load`: recognize `adam_mt`,
`adam_vt` and `adam_denoms` (the latter fatally checked to have 2 entries);
unknown items are skipped.  The accumulator carries `(vMt, vVt, vDenoms)`. -/
def adamScanStep (acc : List ℚ × List ℚ × (ℚ × ℚ)) (item : IoItem) :
    Except String (List ℚ × List ℚ × (ℚ × ℚ)) :=
  if item.name = "adam_mt" then
    .ok (item.data.take item.shapeElements, acc.2.1, acc.2.2)
  else if item.name = "adam_vt" then
    .ok (acc.1, item.data.take item.shapeElements, acc.2.2)
  else if item.name = "adam_denoms" then
    if item.shapeElements ≠ 2 then .error "adam_denoms should have 2 entries"
    else .ok (acc.1, acc.2.1, (item.data.getD 0 0, item.data.getD 1 0))
  else .ok acc

/-- The item loop of `Adam::load`.  The local `std::array<double, 2> vDenoms;`
of the source is declared WITHOUT an initializer, so its initial contents are
indeterminate; they are made explicit here as the `uninit` parameter (the
source's own comment asserts the array "will remain 0" for legacy files, which
would require the zero-initializer `{}` that the declaration lacks). -/
def adamLoadScan (uninit : ℚ × ℚ) (items : List IoItem) :
    Except String (List ℚ × List ℚ × (ℚ × ℚ)) :=
  items.foldlM adamScanStep ([], [], uninit)

/-- `Adam::load` for a single shard (the injected `scatterFn` is modelled as
the identity distribution to one shard): a missing file is a no-op; a file
missing `adam_mt`/`adam_vt` is a logged warning (`Bool` result) leaving the
state untouched; unequal moment lengths are fatal; otherwise the moments are
scattered into the shard state and the denominators assigned from `vDenoms`. -/
def adamLoad (uninit : ℚ × ℚ) (fileExists : Bool) (items : List IoItem)
    (s : AdamState) : Except String (AdamState × Bool) :=
  if fileExists = false then .ok (s, false)
  else
    match adamLoadScan uninit items with
    | .error m => .error m
    | .ok (vMt, vVt, vDen) =>
      if vMt.isEmpty || vVt.isEmpty then .ok (s, true)
      else if vMt.length ≠ vVt.length then .error "mt and vt have different sizes??"
      else .ok (⟨some vMt, some vVt, vDen.1, vDen.2⟩, false)

/-- One iteration of the item loop of `Adagrad::load`: recognize
`adagrad_gt`. -/
def adagradScanStep (acc : List ℚ) (item : IoItem) : List ℚ :=
  if item.name = "adagrad_gt" then item.data.take item.shapeElements else acc

/-- `Adagrad::load` for a single shard: a missing file is a no-op; a file
without the `adagrad_gt` item is a logged warning leaving the state untouched;
otherwise `gt_` is scattered into the shard state. -/
def adagradLoad (fileExists : Bool) (items : List IoItem) (s : AdagradState) :
    Except String (AdagradState × Bool) :=
  if fileExists = false then .ok (s, false)
  else
    let vGt := items.foldl adagradScanStep []
    if vGt.isEmpty then .ok (s, true)
    else .ok (⟨some vGt, s.eps⟩, false)

/-- `Adagrad::save`: the gather callback runs exactly once (counted in the
first component) regardless of `isMainProcess`; only the main process then
writes the `adagrad_gt` item. -/
def adagradSave (isMainProcess : Bool) (vGt : List ℚ) : Nat × Option IoItem :=
  let gatherCalls := 1
  if isMainProcess = false then (gatherCalls, none)
  else (gatherCalls, some ⟨"adagrad_gt", vGt.length, .float32, vGt⟩)

/-- `Adam::save`: the gather callback runs exactly twice (once per moment
tensor) regardless of `isMainProcess`; only the main process then writes the
`adam_mt`, `adam_vt` and `adam_denoms` items, the latter a float64 item of
length 2 holding `[denom1_, denom2_]`. -/
def adamSave (isMainProcess : Bool) (vMt vVt : List ℚ) (denom1 denom2 : ℚ) :
    Nat × Option (List IoItem) :=
  let gatherCalls := 2
  if isMainProcess = false then (gatherCalls, none)
  else (gatherCalls, some
    [⟨"adam_mt", vMt.length, .float32, vMt⟩,
     ⟨"adam_vt", vVt.length, .float32, vVt⟩,
     ⟨"adam_denoms", 2, .float64, [denom1, denom2]⟩])

/-! ## Elementwise access lemmas -/

theorem getD_zipWith {α β γ : Type} (f : α → β → γ) (d1 : α) (d2 : β) (d3 : γ) :
    ∀ (as : List α) (bs : List β) (i : Nat), i < as.length → i < bs.length →
      (List.zipWith f as bs).getD i d3 = f (as.getD i d1) (bs.getD i d2) := by
  intro as
  induction as with
  | nil => intro bs i h1 _; simp at h1
  | cons a as ih =>
    intro bs i h1 h2
    cases bs with
    | nil => simp at h2
    | cons b bs =>
      cases i with
      | zero => simp
      | succ n =>
        simp only [List.zipWith_cons_cons, List.getD_cons_succ]
        exact ih bs n (by simpa using h1) (by simpa using h2)

theorem getD_zipWith3 {α β γ δ : Type} (f : α → β → γ → δ) (d1 : α) (d2 : β) (d3 : γ) (d4 : δ) :
    ∀ (as : List α) (bs : List β) (cs : List γ) (i : Nat),
      i < as.length → i < bs.length → i < cs.length →
      (zipWith3 f as bs cs).getD i d4 = f (as.getD i d1) (bs.getD i d2) (cs.getD i d3) := by
  intro as
  induction as with
  | nil => intro bs cs i h1 _ _; simp at h1
  | cons a as ih =>
    intro bs cs i h1 h2 h3
    cases bs with
    | nil => simp at h2
    | cons b bs =>
      cases cs with
      | nil => simp at h3
      | cons c cs =>
        cases i with
        | zero => simp [zipWith3]
        | succ n =>
          simp only [zipWith3, List.getD_cons_succ]
          exact ih bs cs n (by simpa using h1) (by simpa using h2) (by simpa using h3)

theorem length_zipWith3 {α β γ δ : Type} (f : α → β → γ → δ) :
    ∀ (as : List α) (bs : List β) (cs : List γ),
      (zipWith3 f as bs cs).length = min as.length (min bs.length cs.length) := by
  intro as
  induction as with
  | nil => intro bs cs; simp [zipWith3]
  | cons a as ih =>
    intro bs cs
    cases bs with
    | nil => simp [zipWith3]
    | cons b bs =>
      cases cs with
      | nil => simp [zipWith3]
      | cons c cs => simp [zipWith3, ih, Nat.succ_min_succ]

theorem getD_take_of_lt {α : Type} (d : α) :
    ∀ (l : List α) (n i : Nat), i < n → (l.take n).getD i d = l.getD i d := by
  intro l
  induction l with
  | nil => simp
  | cons a t ih =>
    intro n i h
    cases n with
    | zero => omega
    | succ n =>
      cases i with
      | zero => simp
      | succ i =>
        simp only [List.take_succ_cons, List.getD_cons_succ]
        exact ih n i (by omega)

/-! ## Claims -/

/-- C9: the Sgd update computes exactly `params -= eta*grads` elementwise,
maintains no auxiliary state (it is a pure function of `eta`, `params` and
`grads`), ignores the minibatch-size arguments, and two independent calls from
the same inputs produce the same result. -/
theorem sgd_update_stateless :
    ∀ (eta : ℚ) (params grads : List ℚ) (a r : Nat),
      (sgdUpdateImpl eta params grads a r).length = min params.length grads.length
      ∧ (∀ i, i < params.length → i < grads.length →
          (sgdUpdateImpl eta params grads a r).getD i 0
            = params.getD i 0 - eta * grads.getD i 0)
      ∧ (∀ a' r', sgdUpdateImpl eta params grads a r = sgdUpdateImpl eta params grads a' r')
      ∧ (sgdUpdateImpl eta params grads a r = sgdUpdateImpl eta params grads a r) := by
  intro eta params grads a r
  refine ⟨by simp [sgdUpdateImpl], ?_, fun a' r' => rfl, rfl⟩
  intro i h1 h2
  exact getD_zipWith (fun p g => p - eta * g) 0 0 0 params grads i h1 h2

/-- C9 witness: a concrete instance of the Sgd elementwise formula. -/
theorem sgd_update_stateless_witness :
    (sgdUpdateImpl (1/2) [10, 20] [4, 6] 3 7).getD 0 0 = 10 - 1/2 * 4 :=
  (sgd_update_stateless (1/2) [10, 20] [4, 6] 3 7).2.1 0 (by decide) (by decide)

/-- C10: `setParams` overwrites only the leading positions present in the
vector and keeps the defaults for all later ones: Adagrad keeps `eps = 1e-8`
on an empty vector, Adam keeps `beta1 = 0.9`, `beta2 = 0.999`, `eps = 1e-8`,
`w = 0` for unsupplied positions and ignores entries beyond the fourth, and
Sgd ignores the vector entirely. -/
theorem setparams_positional_defaults :
    (adagradSetParams adagradInit.eps [] = 1 / 100000000)
    ∧ (∀ (e : ℚ) (ps : List ℚ), 0 < ps.length → adagradSetParams e ps = ps.getD 0 0)
    ∧ (∀ (eta : ℚ) (ps : List ℚ),
        (ps.length = 0 → (adamSetParams (adamDefaults eta) ps).beta1 = 9 / 10)
        ∧ (ps.length ≤ 1 → (adamSetParams (adamDefaults eta) ps).beta2 = 999 / 1000)
        ∧ (ps.length ≤ 2 → (adamSetParams (adamDefaults eta) ps).eps = 1 / 100000000)
        ∧ (ps.length ≤ 3 → (adamSetParams (adamDefaults eta) ps).w = 0))
    ∧ (∀ (h : AdamHyper) (ps : List ℚ),
        (0 < ps.length → (adamSetParams h ps).beta1 = ps.getD 0 0)
        ∧ (1 < ps.length → (adamSetParams h ps).beta2 = ps.getD 1 0)
        ∧ (2 < ps.length → (adamSetParams h ps).eps = ps.getD 2 0)
        ∧ (3 < ps.length → (adamSetParams h ps).w = ps.getD 3 0))
    ∧ (∀ (h : AdamHyper) (ps : List ℚ), adamSetParams h ps = adamSetParams h (ps.take 4))
    ∧ (∀ (u : Unit) (ps : List ℚ), sgdSetParams u ps = u) := by
  refine ⟨rfl, ?_, ?_, ?_, ?_, fun u ps => rfl⟩
  · intro e ps h
    simp [adagradSetParams, h]
  · intro eta ps
    refine ⟨?_, ?_, ?_, ?_⟩
    · intro h
      have h0 : ¬ ps.length > 0 := by omega
      have h1 : ¬ ps.length > 1 := by omega
      have h2 : ¬ ps.length > 2 := by omega
      have h3 : ¬ ps.length > 3 := by omega
      simp [adamSetParams, adamDefaults, h0, h1, h2, h3]
    · intro h
      have h1 : ¬ ps.length > 1 := by omega
      have h2 : ¬ ps.length > 2 := by omega
      have h3 : ¬ ps.length > 3 := by omega
      by_cases h0 : ps.length > 0 <;> simp [adamSetParams, adamDefaults, h0, h1, h2, h3]
    · intro h
      have h2 : ¬ ps.length > 2 := by omega
      have h3 : ¬ ps.length > 3 := by omega
      by_cases h0 : ps.length > 0 <;> by_cases h1 : ps.length > 1 <;>
        simp [adamSetParams, adamDefaults, h0, h1, h2, h3]
    · intro h
      have h3 : ¬ ps.length > 3 := by omega
      by_cases h0 : ps.length > 0 <;> by_cases h1 : ps.length > 1 <;>
        by_cases h2 : ps.length > 2 <;> simp [adamSetParams, adamDefaults, h0, h1, h2, h3]
  · intro h ps
    refine ⟨?_, ?_, ?_, ?_⟩
    · intro hl
      by_cases h1 : ps.length > 1 <;> by_cases h2 : ps.length > 2 <;>
        by_cases h3 : ps.length > 3 <;> simp [adamSetParams, hl, h1, h2, h3]
    · intro hl
      have h0 : ps.length > 0 := by omega
      by_cases h2 : ps.length > 2 <;> by_cases h3 : ps.length > 3 <;>
        simp [adamSetParams, h0, hl, h2, h3]
    · intro hl
      have h0 : ps.length > 0 := by omega
      have h1 : ps.length > 1 := by omega
      by_cases h3 : ps.length > 3 <;> simp [adamSetParams, h0, h1, hl, h3]
    · intro hl
      have h0 : ps.length > 0 := by omega
      have h1 : ps.length > 1 := by omega
      have h2 : ps.length > 2 := by omega
      simp [adamSetParams, h0, h1, h2, hl]
  · intro h ps
    have hlen : ∀ k, k < 4 → ((ps.take 4).length > k ↔ ps.length > k) := by
      intro k hk
      rw [List.length_take]
      omega
    have hget : ∀ i, i < 4 → (ps.take 4).getD i 0 = ps.getD i 0 := fun i hi =>
      getD_take_of_lt 0 ps 4 i hi
    simp only [adamSetParams, hlen 0 (by omega), hlen 1 (by omega), hlen 2 (by omega),
      hlen 3 (by omega), hget 0 (by omega), hget 1 (by omega), hget 2 (by omega),
      hget 3 (by omega)]

/-- C10 witness: concrete instances of the positional-overwrite facts. -/
theorem setparams_positional_defaults_witness :
    ((adamSetParams (adamDefaults 1) [1/2]).beta2 = 999 / 1000)
    ∧ (adagradSetParams 5 [7] = 7)
    ∧ ((adamSetParams (adamDefaults 1) [1/2, 1/3, 1/5, 1/7, 99]).w = 1/7) :=
  ⟨(setparams_positional_defaults.2.2.1 1 [1/2]).2.1 (by decide),
   by
    have := setparams_positional_defaults.2.1 5 [7] (by decide)
    simpa using this,
   by
    have := (setparams_positional_defaults.2.2.2.1 (adamDefaults 1)
      [1/2, 1/3, 1/5, 1/7, 99]).2.2.2 (by decide)
    simpa using this⟩

/-- C8: `save()` invokes the collective gather once per running-statistic
tensor (twice for Adam, once for Adagrad) regardless of whether the process is
the main one; a non-main process returns after gathering without writing, and
only the main process writes the gathered vectors — plus, for Adam, the two
scalar denominators as a float64 item of length 2 — into the multi-item
file. -/
theorem save_gather_and_main_writes :
    (∀ (vMt vVt : List ℚ) (d1 d2 : ℚ) (b : Bool), (adamSave b vMt vVt d1 d2).1 = 2)
    ∧ (∀ (vGt : List ℚ) (b : Bool), (adagradSave b vGt).1 = 1)
    ∧ (∀ (vMt vVt : List ℚ) (d1 d2 : ℚ), (adamSave false vMt vVt d1 d2).2 = none)
    ∧ (∀ vGt : List ℚ, (adagradSave false vGt).2 = none)
    ∧ (∀ (vMt vVt : List ℚ) (d1 d2 : ℚ), (adamSave true vMt vVt d1 d2).2
        = some [⟨"adam_mt", vMt.length, .float32, vMt⟩,
                ⟨"adam_vt", vVt.length, .float32, vVt⟩,
                ⟨"adam_denoms", 2, .float64, [d1, d2]⟩])
    ∧ (∀ vGt : List ℚ, (adagradSave true vGt).2
        = some ⟨"adagrad_gt", vGt.length, .float32, vGt⟩) := by
  refine ⟨?_, ?_, ?_, ?_, ?_, ?_⟩ <;> intros <;>
    first
      | rfl
      | (rename_i b; cases b <;> rfl)

/-- C1: the source declares `std::array<double, 2> vDenoms;` without an
initializer, so on a legacy checkpoint holding `adam_mt`/`adam_vt` but no
`adam_denoms` item the two denominators are assigned the indeterminate initial
contents of that local array — not zero as the claim (and the source's own
back-compat comment, which would require the `{}` zero-initializer) states:
with indeterminate contents `(7, 9)` the load completes with
`denom1 = 7 ≠ 0` and `denom2 = 9 ≠ 0`. -/
theorem adam_load_uninit_denoms_bug :
    adamLoad (7, 9) true
        [⟨"adam_mt", 1, .float32, [1/2]⟩, ⟨"adam_vt", 1, .float32, [1/4]⟩] adamInit
      = .ok (⟨some [1/2], some [1/4], 7, 9⟩, false)
    ∧ (7 : ℚ) ≠ 0 ∧ (9 : ℚ) ≠ 0 := by
  refine ⟨rfl, by norm_num, by norm_num⟩

/-! ## Load error handling (C7) -/

theorem adamScan_no_mt (items : List IoItem)
    (hmt : ∀ it ∈ items, it.name ≠ "adam_mt")
    (hden : ∀ it ∈ items, it.name = "adam_denoms" → it.shapeElements = 2) :
    ∀ acc : List ℚ × List ℚ × (ℚ × ℚ),
      ∃ v d, items.foldlM adamScanStep acc = .ok (acc.1, v, d) := by
  induction items with
  | nil => intro acc; exact ⟨acc.2.1, acc.2.2, rfl⟩
  | cons it its ih =>
    intro acc
    have hmt' : ∀ x ∈ its, x.name ≠ "adam_mt" := fun x hx => hmt x (by simp [hx])
    have hden' : ∀ x ∈ its, x.name = "adam_denoms" → x.shapeElements = 2 :=
      fun x hx => hden x (by simp [hx])
    have hit : it.name ≠ "adam_mt" := hmt it (by simp)
    simp only [List.foldlM_cons]
    by_cases hvt : it.name = "adam_vt"
    · have : adamScanStep acc it = .ok (acc.1, it.data.take it.shapeElements, acc.2.2) := by
        simp [adamScanStep, hit, hvt]
      rw [this]
      exact ih hmt' hden' _
    · by_cases hdn : it.name = "adam_denoms"
      · have h2 : it.shapeElements = 2 := hden it (by simp) hdn
        have : adamScanStep acc it
            = .ok (acc.1, acc.2.1, (it.data.getD 0 0, it.data.getD 1 0)) := by
          simp [adamScanStep, hit, hvt, hdn, h2]
        rw [this]
        exact ih hmt' hden' _
      · have : adamScanStep acc it = .ok acc := by
          simp [adamScanStep, hit, hvt, hdn]
        rw [this]
        exact ih hmt' hden' acc

theorem adagradScan_no_gt (items : List IoItem)
    (hgt : ∀ it ∈ items, it.name ≠ "adagrad_gt") :
    ∀ acc : List ℚ, items.foldl adagradScanStep acc = acc := by
  induction items with
  | nil => intro acc; rfl
  | cons it its ih =>
    intro acc
    have hit : it.name ≠ "adagrad_gt" := hgt it (by simp)
    have hgt' : ∀ x ∈ its, x.name ≠ "adagrad_gt" := fun x hx => hgt x (by simp [hx])
    simp only [List.foldl_cons]
    rw [show adagradScanStep acc it = acc by simp [adagradScanStep, hit]]
    exact ih hgt' acc

/-- C7: `load()` on a nonexistent path returns without changing any state (a
cold start, not an error); `load()` on an existing file missing the expected
running-statistic item results only in a warning (`true` flag) and leaves the
prior state untouched (so a fresh optimizer stays zero/unallocated); and Adam's
`load()` aborts fatally when the parsed first- and second-moment vectors are
both present but of different lengths. -/
theorem optimizer_load_error_handling :
    (∀ (u : ℚ × ℚ) (items : List IoItem) (s : AdamState),
        adamLoad u false items s = .ok (s, false))
    ∧ (∀ (items : List IoItem) (s : AdagradState),
        adagradLoad false items s = .ok (s, false))
    ∧ (∀ (u : ℚ × ℚ) (items : List IoItem) (s : AdamState),
        (∀ it ∈ items, it.name ≠ "adam_mt") →
        (∀ it ∈ items, it.name = "adam_denoms" → it.shapeElements = 2) →
        adamLoad u true items s = .ok (s, true))
    ∧ (∀ (items : List IoItem) (s : AdagradState),
        (∀ it ∈ items, it.name ≠ "adagrad_gt") →
        adagradLoad true items s = .ok (s, true))
    ∧ (∀ (u : ℚ × ℚ) (items : List IoItem) (s : AdamState)
        (vMt vVt : List ℚ) (d : ℚ × ℚ),
        adamLoadScan u items = .ok (vMt, vVt, d) →
        vMt ≠ [] → vVt ≠ [] → vMt.length ≠ vVt.length →
        adamLoad u true items s = .error "mt and vt have different sizes??") := by
  refine ⟨fun u items s => rfl, fun items s => rfl, ?_, ?_, ?_⟩
  · intro u items s hmt hden
    obtain ⟨v, d, hscan⟩ := adamScan_no_mt items hmt hden ([], [], u)
    simp [adamLoad, adamLoadScan, hscan]
  · intro items s hgt
    simp [adagradLoad, adagradScan_no_gt items hgt []]
  · intro u items s vMt vVt d hscan hMt hVt hlen
    simp [adamLoad, hscan, List.isEmpty_iff, hMt, hVt, hlen]

/-- C7 witness: the three behaviors at concrete inputs — a missing file, an
existing file with no recognized running-statistic item, and a file with
moment vectors of lengths 1 and 2. -/
theorem optimizer_load_error_handling_witness :
    adamLoad (3, 4) false [⟨"adam_mt", 1, .float32, [1]⟩] adamInit = .ok (adamInit, false)
    ∧ adagradLoad false [] adagradInit = .ok (adagradInit, false)
    ∧ adamLoad (3, 4) true [⟨"other", 1, .float32, [1]⟩] adamInit = .ok (adamInit, true)
    ∧ adagradLoad true [⟨"other", 1, .float32, [1]⟩] adagradInit = .ok (adagradInit, true)
    ∧ adamLoad (3, 4) true
        [⟨"adam_mt", 1, .float32, [1]⟩, ⟨"adam_vt", 2, .float32, [1, 2]⟩] adamInit
      = .error "mt and vt have different sizes??" :=
  ⟨optimizer_load_error_handling.1 (3, 4) [⟨"adam_mt", 1, .float32, [1]⟩] adamInit,
   optimizer_load_error_handling.2.1 [] adagradInit,
   optimizer_load_error_handling.2.2.1 (3, 4) [⟨"other", 1, .float32, [1]⟩] adamInit
     (by decide) (by decide),
   optimizer_load_error_handling.2.2.2.1 [⟨"other", 1, .float32, [1]⟩] adagradInit
     (by decide),
   optimizer_load_error_handling.2.2.2.2 (3, 4)
     [⟨"adam_mt", 1, .float32, [1]⟩, ⟨"adam_vt", 2, .float32, [1, 2]⟩] adamInit
     [1] [1, 2] (3, 4) rfl (by decide) (by decide) (by decide)⟩

/-! ## Adam update rule (C3) -/

/-- Scenario A of the spec: three Adam updates with `eta=0.01`,
`actualMBSize = refMBWords = 1`, `grads=[1.0]`, starting from `params=[0.0]`
and a fresh optimizer. -/
def adamScenario (sq : ℚ → ℚ) : Nat → AdamState × List ℚ
  | 0 => (adamInit, [0])
  | n + 1 =>
    let sp := adamScenario sq n
    adamUpdateImpl sq (adamDefaults (1/100)) sp.1 sp.2 [1] 1 1

/-- C3: one Adam update evolves the state exactly as
`denom1 = beta1*denom1 + (1-beta1)`, `denom2 = beta2*denom2 + (1-beta2)`,
`mt = beta1*mt + ((1-beta1)/T)*grads`, `vt = beta2*vt + ((1-beta2)/T²)*grads²`
elementwise, and then `params -= (eta*(T/Tref)) * ((mt/denom1) /
(sqrt(vt/denom2)+eps) + weightDecay*params)`; with `beta1 = 0.9` and the
denominators starting at zero, the `denom1` values after the first three
updates are `0.1`, `0.19`, `0.271`, and the first call divides by nonzero
denominators. -/
theorem adam_update_rule :
    (∀ (sq : ℚ → ℚ) (h : AdamHyper) (s : AdamState) (m0 v0 p g : List ℚ) (T R : Nat),
      s.mt = some m0 → s.vt = some v0 →
      m0.length = p.length → v0.length = p.length → g.length = p.length →
      (adamUpdateImpl sq h s p g T R).1.denom1 = h.beta1 * s.denom1 + (1 - h.beta1)
      ∧ (adamUpdateImpl sq h s p g T R).1.denom2 = h.beta2 * s.denom2 + (1 - h.beta2)
      ∧ ∃ mt1 vt1,
          (adamUpdateImpl sq h s p g T R).1.mt = some mt1
          ∧ (adamUpdateImpl sq h s p g T R).1.vt = some vt1
          ∧ mt1.length = p.length ∧ vt1.length = p.length
          ∧ (adamUpdateImpl sq h s p g T R).2.length = p.length
          ∧ (∀ i, i < p.length →
              mt1.getD i 0 = h.beta1 * m0.getD i 0 + (1 - h.beta1) / (T : ℚ) * g.getD i 0)
          ∧ (∀ i, i < p.length →
              vt1.getD i 0 = h.beta2 * v0.getD i 0
                + (1 - h.beta2) / (T : ℚ) / (T : ℚ) * (g.getD i 0 * g.getD i 0))
          ∧ (∀ i, i < p.length →
              (adamUpdateImpl sq h s p g T R).2.getD i 0
                = p.getD i 0 - h.eta * ((T : ℚ) / (R : ℚ)) *
                    (mt1.getD i 0 / (h.beta1 * s.denom1 + (1 - h.beta1))
                        / (sq (vt1.getD i 0 / (h.beta2 * s.denom2 + (1 - h.beta2))) + h.eps)
                      + h.w * p.getD i 0)))
    ∧ (∀ sq : ℚ → ℚ,
        (adamScenario sq 1).1.denom1 = 1/10
        ∧ (adamScenario sq 2).1.denom1 = 19/100
        ∧ (adamScenario sq 3).1.denom1 = 271/1000
        ∧ (adamScenario sq 1).1.denom1 ≠ 0
        ∧ (adamScenario sq 1).1.denom2 ≠ 0) := by
  constructor
  · intro sq h s m0 v0 p g T R hm hv hlm hlv hlg
    refine ⟨by simp [adamUpdateImpl], by simp [adamUpdateImpl], ?_⟩
    refine ⟨List.zipWith (fun m gr => h.beta1 * m + (1 - h.beta1) / (T : ℚ) * gr) m0 g,
      List.zipWith (fun v gr => h.beta2 * v + (1 - h.beta2) / (T : ℚ) / (T : ℚ) * (gr * gr)) v0 g,
      by simp [adamUpdateImpl, hm], by simp [adamUpdateImpl, hv], ?_, ?_, ?_, ?_, ?_, ?_⟩
    · simp [List.length_zipWith, hlm, hlg]
    · simp [List.length_zipWith, hlv, hlg]
    · simp only [adamUpdateImpl]
      rw [length_zipWith3, hm, hv]
      simp only [Option.getD_some, List.length_zipWith]
      omega
    · intro i hi
      exact getD_zipWith _ 0 0 0 m0 g i (by omega) (by omega)
    · intro i hi
      exact getD_zipWith _ 0 0 0 v0 g i (by omega) (by omega)
    · intro i hi
      simp only [adamUpdateImpl, hm, hv, Option.getD_some]
      exact getD_zipWith3
        (fun pe m v => pe - h.eta * ((T : ℚ) / (R : ℚ)) *
          (m / (h.beta1 * s.denom1 + (1 - h.beta1))
            / (sq (v / (h.beta2 * s.denom2 + (1 - h.beta2))) + h.eps) + h.w * pe))
        0 0 0 0 p
        (List.zipWith (fun m gr => h.beta1 * m + (1 - h.beta1) / (T : ℚ) * gr) m0 g)
        (List.zipWith (fun v gr => h.beta2 * v + (1 - h.beta2) / (T : ℚ) / (T : ℚ) * (gr * gr)) v0 g)
        i hi (by simp [List.length_zipWith]; omega) (by simp [List.length_zipWith]; omega)
  · intro sq
    have h1 : (adamScenario sq 1).1.denom1 = 1/10 := by
      norm_num [adamScenario, adamUpdateImpl, adamInit, adamDefaults]
    have h4 : (adamScenario sq 1).1.denom2 = 1/1000 := by
      norm_num [adamScenario, adamUpdateImpl, adamInit, adamDefaults]
    have h2 : (adamScenario sq 2).1.denom1 = 19/100 := by
      have hstep : adamScenario sq 2 = adamUpdateImpl sq (adamDefaults (1/100))
          (adamScenario sq 1).1 (adamScenario sq 1).2 [1] 1 1 := rfl
      rw [hstep]
      norm_num [adamUpdateImpl, adamDefaults, h1]
    have h3 : (adamScenario sq 3).1.denom1 = 271/1000 := by
      have hstep : adamScenario sq 3 = adamUpdateImpl sq (adamDefaults (1/100))
          (adamScenario sq 2).1 (adamScenario sq 2).2 [1] 1 1 := rfl
      rw [hstep]
      norm_num [adamUpdateImpl, adamDefaults, h2]
    exact ⟨h1, h2, h3, by rw [h1]; norm_num, by rw [h4]; norm_num⟩

/-- C3 witness: the denominator recursion at one concrete state. -/
theorem adam_update_rule_witness :
    (adamUpdateImpl id (adamDefaults 1) ⟨some [2], some [3], 1/2, 1/3⟩ [5] [7] 2 4).1.denom1
      = (adamDefaults 1).beta1 * (1/2) + (1 - (adamDefaults 1).beta1) :=
  (adam_update_rule.1 id (adamDefaults 1) ⟨some [2], some [3], 1/2, 1/3⟩
    [2] [3] [5] [7] 2 4 rfl rfl rfl rfl rfl).1

/-! ## Adagrad update rule (C4) -/

/-- A concrete square-root witness for the Adagrad scenario (only the value at
4 is relevant). -/
def sqrtFour : ℚ → ℚ := fun x => if x = 4 then 2 else 0

/-- C4 (amended scenario value): Adagrad aborts fatally when the actual and
reference minibatch sizes differ; otherwise `gt += grads²` elementwise and
`params -= eta/(sqrt(gt)+eps) * grads` with `eps` floored to
`max(type-minimum * 2, configured eps)`; with `eta=0.1`, `eps=1e-8`, one
update with `grads=[2.0]` on `params=[1.0]` yields `gt=[4.0]` and
`params = [1 - 0.2/(2+1e-8)] ≈ [0.9]` (the spec's `≈ 0.95` does not match the
stated formula; see the counterexample). -/
theorem adagrad_update_rule :
    (∀ (sq : ℚ → ℚ) (eta tm : ℚ) (s : AdagradState) (p g : List ℚ) (a r : Nat),
      a ≠ r → adagradUpdateImpl sq eta tm s p g a r
        = .error "Adagrad does not support rational hyper-parameter adjustment")
    ∧ (∀ (sq : ℚ → ℚ) (eta tm : ℚ) (s : AdagradState) (gt0 p g : List ℚ) (n : Nat),
        s.gt = some gt0 → gt0.length = p.length → g.length = p.length →
        ∃ gt1 p1,
          adagradUpdateImpl sq eta tm s p g n n = .ok (⟨some gt1, max (tm * 2) s.eps⟩, p1)
          ∧ gt1.length = p.length ∧ p1.length = p.length
          ∧ (∀ i, i < p.length → gt1.getD i 0 = gt0.getD i 0 + g.getD i 0 * g.getD i 0)
          ∧ (∀ i, i < p.length → p1.getD i 0
              = p.getD i 0 - eta / (sq (gt1.getD i 0) + max (tm * 2) s.eps) * g.getD i 0))
    ∧ (∀ sq : ℚ → ℚ, sq 4 = 2 →
        adagradUpdateImpl sq (1/10) (1 / 2 ^ 126) adagradInit [1] [2] 5 5
          = .ok (⟨some [4], 1/100000000⟩, [180000001 / 200000001])
        ∧ |(180000001 : ℚ) / 200000001 - 9/10| < 1 / 10 ^ 7) := by
  refine ⟨?_, ?_, ?_⟩
  · intro sq eta tm s p g a r hne
    simp [adagradUpdateImpl, hne]
  · intro sq eta tm s gt0 p g n hs hl1 hl2
    refine ⟨List.zipWith (fun x gr => x + gr * gr) gt0 g,
      zipWith3 (fun pe x gr => pe - eta / (sq x + max (tm * 2) s.eps) * gr)
        p (List.zipWith (fun x gr => x + gr * gr) gt0 g) g,
      by simp [adagradUpdateImpl, hs], ?_, ?_, ?_, ?_⟩
    · simp [List.length_zipWith]; omega
    · rw [length_zipWith3]
      simp only [List.length_zipWith]
      omega
    · intro i hi
      exact getD_zipWith _ 0 0 0 gt0 g i (by omega) (by omega)
    · intro i hi
      exact getD_zipWith3
        (fun pe x gr => pe - eta / (sq x + max (tm * 2) s.eps) * gr) 0 0 0 0
        p (List.zipWith (fun x gr => x + gr * gr) gt0 g) g i hi
        (by simp [List.length_zipWith]; omega) (by omega)
  · intro sq hsq
    constructor
    · have hmax : max ((1 / 2 ^ 126 : ℚ) * 2) (1 / 100000000) = 1 / 100000000 := by
        apply max_eq_right
        norm_num
      have h4 : (0 : ℚ) + 2 * 2 = 4 := by norm_num
      simp only [adagradUpdateImpl, adagradInit, if_neg (by decide : ¬ (5 : Nat) ≠ 5)]
      simp only [Option.getD_none, List.length_cons, List.length_nil, List.replicate,
        List.zipWith_cons_cons, List.zipWith_nil_right, zipWith3, hmax, h4, hsq]
      norm_num
    · rw [abs_sub_lt_iff]
      constructor <;> norm_num

/-- C4 witness: the fatal-mismatch branch and the elementwise formulas at a
concrete state. -/
theorem adagrad_update_rule_witness :
    (adagradUpdateImpl id (1/2) 0 adagradInit [1] [1] 3 4
      = .error "Adagrad does not support rational hyper-parameter adjustment")
    ∧ (adagradUpdateImpl sqrtFour (1/10) (1 / 2 ^ 126) adagradInit [1] [2] 5 5
        = .ok (⟨some [4], 1/100000000⟩, [180000001 / 200000001])) :=
  ⟨adagrad_update_rule.1 id (1/2) 0 adagradInit [1] [1] 3 4 (by decide),
   (adagrad_update_rule.2.2 sqrtFour (by norm_num [sqrtFour])).1⟩

/-- C4 counterexample: at the claim's Scenario B input (`eta=0.1`, `eps=1e-8`,
`grads=[2.0]`, `params=[1.0]`, fresh state, `sqrt 4 = 2`) the code yields
`params = [180000001/200000001] ≈ 0.9`, which is not approximately `0.95`
(the distance exceeds 0.04), refuting the claim's stated result
`params ≈ [0.95]`; the claimed running state `gt = [4.0]` is correct. -/
theorem adagrad_scenario_not_095 :
    adagradUpdateImpl sqrtFour (1/10) (1 / 2 ^ 126) adagradInit [1] [2] 1 1
      = .ok (⟨some [4], 1/100000000⟩, [180000001 / 200000001])
    ∧ (4 : ℚ) / 100 < |(180000001 : ℚ) / 200000001 - 95/100| := by
  constructor
  · have hmax : max ((1 / 2 ^ 126 : ℚ) * 2) (1 / 100000000) = 1 / 100000000 := by
      apply max_eq_right
      norm_num
    have h4 : (0 : ℚ) + 2 * 2 = 4 := by norm_num
    simp only [adagradUpdateImpl, adagradInit, if_neg (by decide : ¬ (1 : Nat) ≠ 1)]
    simp only [Option.getD_none, List.length_cons, List.length_nil, List.replicate,
      List.zipWith_cons_cons, List.zipWith_nil_right, zipWith3, hmax, h4]
    norm_num [sqrtFour]
  · rw [abs_of_neg (by norm_num)]
    norm_num

/-! ## Minibatch-size handling (C5) -/

theorem runUpdate_not_mem_mvAvgBlock (cfg : OConfig) (e : Nat) (c : Bool) (st : OState)
    (pm gd : BufRef) (a r : Nat) :
    UEvent.runUpdate pm gd a r ∉ uresTrace (mvAvgBlock cfg e c st) := by
  have halloc : ∀ (cap bytes : Nat) (s : OState),
      UEvent.runUpdate pm gd a r ∉ uresTrace (mvAvgAlloc cap bytes s) := by
    intro cap bytes s
    unfold mvAvgAlloc
    cases harena : arenaAllocate { s with optAlloc := some cap } bytes with
    | error m => simp [uresTrace]
    | ok pr => cases pr with
      | mk st2 rb => simp [uresTrace]
  unfold mvAvgBlock
  cases hmv : cfg.mvAvg with
  | false => simp [uresTrace]
  | true =>
    cases hoa : st.optAlloc with
    | none => simpa using halloc _ _ st
    | some cap => simp [uresTrace]

theorem runUpdate_not_mem_castBlock (cfg : OConfig) (e : Nat) (c : Bool)
    (p g : TensorDesc) (st : OState) (pm gd : BufRef) (a r : Nat) :
    UEvent.runUpdate pm gd a r ∉ uresTrace (castBlock cfg e c p g st) := by
  have hallocn : ∀ (bytes pid gid : Nat) (sR : OState) (trR : List UEvent),
      (UEvent.runUpdate pm gd a r ∉ trR) →
      UEvent.runUpdate pm gd a r ∉ uresTrace (castAlloc bytes pid gid sR trR) := by
    intro bytes pid gid sR trR htr
    unfold castAlloc
    cases h1 : arenaAllocate sR bytes with
    | error m => simpa [uresTrace] using htr
    | ok pr =>
      cases pr with
      | mk stP pmR =>
        cases h2 : arenaAllocate stP bytes with
        | error m => simp [uresTrace, h2, htr]
        | ok pr2 => cases pr2 with
          | mk stG gdR => simp [uresTrace, h2, htr]
  have hcore : ∀ (bytes pid gid : Nat) (sR : OState) (trR : List UEvent),
      (UEvent.runUpdate pm gd a r ∉ trR) →
      UEvent.runUpdate pm gd a r ∉ uresTrace (castBlockCore bytes pid gid sR trR) := by
    intro bytes pid gid sR trR htr
    unfold castBlockCore
    cases hpm : sR.pm with
    | none => exact hallocn bytes pid gid sR trR htr
    | some x => simp [uresTrace, htr]
  unfold castBlock
  cases hc : c with
  | false => simp [uresTrace]
  | true =>
    cases hoa : st.optAlloc with
    | none => simpa using hcore _ _ _ _ _ (by simp)
    | some cap => simpa using hcore _ _ _ _ _ (by simp)

theorem mem_uresTrace_andThen (e : UEvent) (r : URes) (f : OState → URes) :
    e ∈ uresTrace (andThen r f) →
      e ∈ uresTrace r ∨ ∃ st tr, r = URes.ok st tr ∧ e ∈ uresTrace (f st) := by
  cases r with
  | abort m tr => intro h; exact Or.inl h
  | ok st tr =>
    intro h
    cases hf : f st with
    | ok st' tr' =>
      simp only [andThen, hf, uresTrace, List.mem_append] at h
      rcases h with h | h
      · exact Or.inl h
      · exact Or.inr ⟨st, tr, rfl, by rw [hf]; exact h⟩
    | abort m' tr' =>
      simp only [andThen, hf, uresTrace, List.mem_append] at h
      rcases h with h | h
      · exact Or.inl h
      · exact Or.inr ⟨st, tr, rfl, by rw [hf]; exact h⟩

theorem runUpdate_mem_updateTail (cfg : OConfig) (c : Bool) (pmR gdR avgR : BufRef)
    (pid gid mb ref : Nat) (pm gd : BufRef) (a r : Nat) :
    UEvent.runUpdate pm gd a r ∈ updateTail cfg c pmR gdR avgR pid gid mb ref →
      pm = pmR ∧ gd = gdR ∧ a = mb ∧ r = ref := by
  unfold updateTail
  intro h
  simp only [List.mem_append, List.mem_singleton] at h
  rcases h with ((((h | h) | h) | h) | h) | h
  · split at h <;> simp at h
  · split at h <;> simp at h
  · simp at h
    exact ⟨h.1, h.2.1, h.2.2.1, h.2.2.2⟩
  · split at h <;> simp at h
  · split at h <;> simp at h
  · simp at h

/-- C5: when the reference minibatch size is 0 (auto-adjustment disabled),
the actual and reference sizes passed to the update rule are both forced to 1
(and the call's behavior is independent of the `mbSize` argument); when the
reference size is nonzero and `mbSize` is the not-provided sentinel, the call
aborts fatally with an empty trace — before any state is mutated. -/
theorem update_mbsize_handling :
    (∀ (cfg : OConfig) (st : OState) (p g : TensorDesc) (mb : Nat),
      cfg.refMBWordsParam = 0 →
      (∀ pm gd a r, UEvent.runUpdate pm gd a r ∈ uresTrace (optimizerUpdate cfg st p g mb) →
        a = 1 ∧ r = 1)
      ∧ (∀ mb', optimizerUpdate cfg st p g mb = optimizerUpdate cfg st p g mb'))
    ∧ (∀ (cfg : OConfig) (st : OState) (p g : TensorDesc) (mb : Nat),
        cfg.refMBWordsParam ≠ 0 → mb = mbSizeNotProvided →
        optimizerUpdate cfg st p g mb
          = .abort "Using rational optimizer auto-adjustment with trainer that does not provide MB size" []) := by
  constructor
  · intro cfg st p g mb h0
    constructor
    · intro pm gd a r hmem
      unfold optimizerUpdate at hmem
      rw [if_neg (by simp [h0])] at hmem
      unfold updateCore at hmem
      rcases mem_uresTrace_andThen _ _ _ hmem with h | ⟨st1, tr1, _, h⟩
      · exact absurd h (runUpdate_not_mem_mvAvgBlock cfg _ _ st pm gd a r)
      · rcases mem_uresTrace_andThen _ _ _ h with h' | ⟨st2, tr2, _, h'⟩
        · exact absurd h' (runUpdate_not_mem_castBlock cfg _ _ p g st1 pm gd a r)
        · simp only [uresTrace] at h'
          have := runUpdate_mem_updateTail cfg _ _ _ _ p.tid g.tid _ _ pm gd a r h'
          simp only [h0, if_pos rfl] at this
          exact ⟨this.2.2.1, this.2.2.2⟩
    · intro mb'
      unfold optimizerUpdate
      have hcond : ¬ (cfg.refMBWordsParam ≠ 0 ∧ mb = mbSizeNotProvided) := by simp [h0]
      have hcond' : ¬ (cfg.refMBWordsParam ≠ 0 ∧ mb' = mbSizeNotProvided) := by simp [h0]
      rw [if_neg hcond, if_neg hcond']
      simp [h0]
  · intro cfg st p g mb h0 hmb
    unfold optimizerUpdate
    rw [if_pos ⟨h0, hmb⟩]

/-- C5 witness: a call with auto-adjustment disabled passes `(1, 1)` to the
rule even for an arbitrary `mbSize`, and a call with a reference size but the
sentinel `mbSize` aborts with an empty trace. -/
theorem update_mbsize_handling_witness :
    ((1 : Nat) = 1 ∧ (1 : Nat) = 1)
    ∧ optimizerUpdate ⟨5, false, 1, false, .float32⟩ initOState
        ⟨1, .float32, 1⟩ ⟨2, .float32, 1⟩ mbSizeNotProvided
      = .abort "Using rational optimizer auto-adjustment with trainer that does not provide MB size" [] :=
  ⟨(update_mbsize_handling.1 ⟨0, false, 1, false, .float32⟩ initOState
      ⟨1, .float32, 1⟩ ⟨2, .float32, 1⟩ 3 rfl).1
      (BufRef.ext 1) (BufRef.ext 2) 1 1 (by decide),
   update_mbsize_handling.2 ⟨5, false, 1, false, .float32⟩ initOState
     ⟨1, .float32, 1⟩ ⟨2, .float32, 1⟩ mbSizeNotProvided (by decide) rfl⟩

/-! ## Arena reservation accounting (C2) -/

theorem countReserves_append (a b : List UEvent) :
    countReserves (a ++ b) = countReserves a + countReserves b := by
  simp [countReserves, List.countP_append]

theorem countReserves_updateTail (cfg : OConfig) (c : Bool) (pmR gdR avgR : BufRef)
    (pid gid mb ref : Nat) :
    countReserves (updateTail cfg c pmR gdR avgR pid gid mb ref) = 0 := by
  unfold updateTail countReserves
  simp [List.countP_append, List.countP_cons, isReserve, apply_ite (List.countP isReserve)]

theorem arenaAllocate_optAlloc (s : OState) (b : Nat) (s' : OState) (r : BufRef)
    (h : arenaAllocate s b = .ok (s', r)) : s'.optAlloc = s.optAlloc := by
  unfold arenaAllocate at h
  cases hoa : s.optAlloc with
  | none => rw [hoa] at h; simp at h
  | some cap =>
    rw [hoa] at h
    by_cases hle : s.allocUsed + b ≤ cap
    · simp only [hle, if_true, Except.ok.injEq, Prod.mk.injEq] at h
      rw [← h.1]
    · simp [hle] at h

theorem castBlockCore_facts (b pid gid : Nat) (sR : OState) (trR : List UEvent) :
    countReserves (uresTrace (castBlockCore b pid gid sR trR)) = countReserves trR
    ∧ (∀ st' tr, castBlockCore b pid gid sR trR = .ok st' tr → st'.optAlloc = sR.optAlloc) := by
  unfold castBlockCore
  cases hpm : sR.pm with
  | some x =>
    constructor
    · simp [uresTrace, countReserves_append, countReserves, List.countP_cons, isReserve]
    · intro st' tr h
      simp only [URes.ok.injEq] at h
      rw [← h.1]
  | none =>
    unfold castAlloc
    cases h1 : arenaAllocate sR b with
    | error m =>
      constructor
      · simp [uresTrace]
      · intro st' tr h; simp at h
    | ok pr =>
      cases pr with
      | mk stP pmR =>
        cases h2 : arenaAllocate stP b with
        | error m =>
          constructor
          · simp [h2, uresTrace, countReserves_append, countReserves, List.countP_cons, isReserve]
          · intro st' tr h; simp [h2] at h
        | ok pr2 =>
          cases pr2 with
          | mk stG gdR =>
            have e1 := arenaAllocate_optAlloc sR b stP pmR h1
            have e2 := arenaAllocate_optAlloc stP b stG gdR h2
            constructor
            · simp [h2, uresTrace, countReserves_append, countReserves, List.countP_cons, isReserve]
            · intro st' tr h
              simp only [h2, URes.ok.injEq] at h
              rw [← h.1]
              simp only [OState.optAlloc]
              rw [e2, e1]
  
theorem mvAvgAlloc_facts (cap bytes : Nat) (st : OState) :
    countReserves (uresTrace (mvAvgAlloc cap bytes st)) = 1
    ∧ (∀ st' tr, mvAvgAlloc cap bytes st = .ok st' tr → st'.optAlloc = some cap) := by
  unfold mvAvgAlloc
  cases h : arenaAllocate { st with optAlloc := some cap } bytes with
  | error m =>
    constructor
    · simp [uresTrace, countReserves, List.countP_cons, isReserve]
    · intro st' tr hh; simp at hh
  | ok pr =>
    cases pr with
    | mk st2 rb =>
      have e := arenaAllocate_optAlloc _ bytes st2 rb h
      constructor
      · simp [uresTrace, countReserves, List.countP_cons, isReserve]
      · intro st' tr hh
        simp only [URes.ok.injEq] at hh
        rw [← hh.1]
        simp only [OState.optAlloc]
        simpa using e

theorem mvAvgBlock_eval_some (cfg : OConfig) (e : Nat) (c : Bool) (st : OState) (cap : Nat)
    (h : st.optAlloc = some cap) : mvAvgBlock cfg e c st = .ok st [] := by
  unfold mvAvgBlock
  cases hmv : cfg.mvAvg <;> simp [h]

theorem mvAvgBlock_eval_false (cfg : OConfig) (e : Nat) (c : Bool) (st : OState)
    (h : cfg.mvAvg = false) : mvAvgBlock cfg e c st = .ok st [] := by
  unfold mvAvgBlock
  simp [h]

theorem mvAvgBlock_eval_alloc (cfg : OConfig) (e : Nat) (c : Bool) (st : OState)
    (h1 : st.optAlloc = none) (h2 : cfg.mvAvg = true) :
    mvAvgBlock cfg e c st
      = mvAvgAlloc ((if c then 3 else 1) * e * sizeOfTy cfg.optimizerType)
          (e * sizeOfTy cfg.optimizerType) st := by
  unfold mvAvgBlock
  simp [h1, h2]

theorem castBlock_eval_false (cfg : OConfig) (e : Nat) (p g : TensorDesc) (st : OState) :
    castBlock cfg e false p g st
      = .ok { st with pm := some (BufRef.ext p.tid), gd := some (BufRef.ext g.tid) } [] := by
  unfold castBlock
  simp

theorem castBlock_eval_some (cfg : OConfig) (e : Nat) (p g : TensorDesc) (st : OState)
    (cap : Nat) (hoa : st.optAlloc = some cap) :
    castBlock cfg e true p g st
      = castBlockCore (e * sizeOfTy cfg.optimizerType) p.tid g.tid st [] := by
  unfold castBlock
  simp [hoa]

theorem castBlock_eval_none (cfg : OConfig) (e : Nat) (p g : TensorDesc) (st : OState)
    (hoa : st.optAlloc = none) :
    castBlock cfg e true p g st
      = castBlockCore (e * sizeOfTy cfg.optimizerType) p.tid g.tid
          { st with optAlloc := some (2 * e * sizeOfTy cfg.optimizerType) }
          [UEvent.reserve (2 * e * sizeOfTy cfg.optimizerType)] := by
  unfold castBlock
  simp [hoa]

theorem mvAvgBlock_reserves (cfg : OConfig) (e : Nat) (c : Bool) (st : OState) :
    (∀ cap, st.optAlloc = some cap →
      countReserves (uresTrace (mvAvgBlock cfg e c st)) = 0
      ∧ (∀ st' tr, mvAvgBlock cfg e c st = .ok st' tr → st'.optAlloc = some cap))
    ∧ countReserves (uresTrace (mvAvgBlock cfg e c st)) ≤ 1
    ∧ (∀ st' tr, mvAvgBlock cfg e c st = .ok st' tr → st'.optAlloc = none →
        st.optAlloc = none ∧ countReserves tr = 0) := by
  by_cases hmv : cfg.mvAvg = true
  · cases hoa : st.optAlloc with
    | some cap =>
      rw [mvAvgBlock_eval_some cfg e c st cap hoa]
      refine ⟨?_, ?_, ?_⟩
      · intro cap' hcap'
        refine ⟨by simp [uresTrace, countReserves], ?_⟩
        intro st' tr h
        simp only [URes.ok.injEq] at h
        rw [← h.1, hoa]
        exact hcap'
      · simp [uresTrace, countReserves]
      · intro st' tr h hnone
        simp only [URes.ok.injEq] at h
        rw [← h.1] at hnone
        rw [hoa] at hnone
        simp at hnone
    | none =>
      rw [mvAvgBlock_eval_alloc cfg e c st hoa hmv]
      have hf := mvAvgAlloc_facts ((if c then 3 else 1) * e * sizeOfTy cfg.optimizerType)
        (e * sizeOfTy cfg.optimizerType) st
      refine ⟨?_, ?_, ?_⟩
      · intro cap hcap
        simp at hcap
      · rw [hf.1]
      · intro st' tr h hnone
        rw [hf.2 st' tr h] at hnone
        simp at hnone
  · have hb : cfg.mvAvg = false := by revert hmv; cases cfg.mvAvg <;> simp
    rw [mvAvgBlock_eval_false cfg e c st hb]
    refine ⟨?_, ?_, ?_⟩
    · intro cap' hcap'
      refine ⟨by simp [uresTrace, countReserves], ?_⟩
      intro st' tr h
      simp only [URes.ok.injEq] at h
      rw [← h.1]
      exact hcap'
    · simp [uresTrace, countReserves]
    · intro st' tr h hnone
      simp only [URes.ok.injEq] at h
      refine ⟨by rw [h.1]; exact hnone, ?_⟩
      rw [← h.2]
      simp [countReserves]

theorem castBlock_reserves (cfg : OConfig) (e : Nat) (c : Bool) (p g : TensorDesc)
    (st : OState) :
    (∀ cap, st.optAlloc = some cap →
      countReserves (uresTrace (castBlock cfg e c p g st)) = 0
      ∧ (∀ st' tr, castBlock cfg e c p g st = .ok st' tr → st'.optAlloc = some cap))
    ∧ countReserves (uresTrace (castBlock cfg e c p g st)) ≤ 1
    ∧ (∀ st' tr, castBlock cfg e c p g st = .ok st' tr → st'.optAlloc = none →
        st.optAlloc = none ∧ countReserves tr = 0) := by
  cases c with
  | false =>
    rw [castBlock_eval_false cfg e p g st]
    refine ⟨?_, ?_, ?_⟩
    · intro cap hcap
      refine ⟨by simp [uresTrace, countReserves], ?_⟩
      intro st' tr h
      simp only [URes.ok.injEq] at h
      rw [← h.1]
      simpa using hcap
    · simp [uresTrace, countReserves]
    · intro st' tr h hnone
      simp only [URes.ok.injEq] at h
      rw [← h.1] at hnone
      simp at hnone
      refine ⟨hnone, ?_⟩
      rw [← h.2]
      simp [countReserves]
  | true =>
    cases hoa : st.optAlloc with
    | some cap =>
      rw [castBlock_eval_some cfg e p g st cap hoa]
      have hf := castBlockCore_facts (e * sizeOfTy cfg.optimizerType) p.tid g.tid st []
      refine ⟨?_, ?_, ?_⟩
      · intro cap' hcap'
        refine ⟨by rw [hf.1]; simp [countReserves], ?_⟩
        intro st' tr h
        rw [hf.2 st' tr h, hoa]
        exact hcap'
      · rw [hf.1]
        simp [countReserves]
      · intro st' tr h hnone
        rw [hf.2 st' tr h, hoa] at hnone
        simp at hnone
    | none =>
      rw [castBlock_eval_none cfg e p g st hoa]
      have hf := castBlockCore_facts (e * sizeOfTy cfg.optimizerType) p.tid g.tid
        { st with optAlloc := some (2 * e * sizeOfTy cfg.optimizerType) }
        [UEvent.reserve (2 * e * sizeOfTy cfg.optimizerType)]
      refine ⟨?_, ?_, ?_⟩
      · intro cap hcap
        simp at hcap
      · rw [hf.1]
        simp [countReserves, List.countP_cons, isReserve]
      · intro st' tr h hnone
        rw [hf.2 st' tr h] at hnone
        simp at hnone

theorem andThen_abort_eval (m : String) (tr : List UEvent) (f : OState → URes) :
    andThen (URes.abort m tr) f = URes.abort m tr := rfl

theorem andThen_ok_eval (st : OState) (tr : List UEvent) (f : OState → URes) :
    andThen (URes.ok st tr) f
      = (match f st with
         | URes.ok st' tr' => URes.ok st' (tr ++ tr')
         | URes.abort m tr' => URes.abort m (tr ++ tr')) := rfl

theorem updateCore_reserves (cfg : OConfig) (c : Bool) (st : OState) (p g : TensorDesc)
    (mb ref : Nat) :
    (∀ cap, st.optAlloc = some cap →
      countReserves (uresTrace (updateCore cfg c st p g mb ref)) = 0
      ∧ (∀ st' tr, updateCore cfg c st p g mb ref = .ok st' tr → st'.optAlloc = some cap))
    ∧ countReserves (uresTrace (updateCore cfg c st p g mb ref)) ≤ 1
    ∧ (∀ st' tr, updateCore cfg c st p g mb ref = .ok st' tr → st'.optAlloc = none →
        st.optAlloc = none ∧ countReserves tr = 0) := by
  have hm := mvAvgBlock_reserves cfg p.size c st
  cases hr1 : mvAvgBlock cfg p.size c st with
  | abort m tr =>
    rw [hr1] at hm
    have hval : updateCore cfg c st p g mb ref = .abort m tr := by
      unfold updateCore
      rw [hr1, andThen_abort_eval]
    rw [hval]
    refine ⟨?_, ?_, ?_⟩
    · intro cap hcap
      exact ⟨(hm.1 cap hcap).1, fun st' tr' h => by simp at h⟩
    · exact hm.2.1
    · intro st' tr' h
      simp at h
  | ok st1 tr1 =>
    rw [hr1] at hm
    have hc := castBlock_reserves cfg p.size c p g st1
    cases hr2 : castBlock cfg p.size c p g st1 with
    | abort m2 tr2 =>
      rw [hr2] at hc
      have hval : updateCore cfg c st p g mb ref = .abort m2 (tr1 ++ tr2) := by
        unfold updateCore
        rw [hr1, andThen_ok_eval, hr2, andThen_abort_eval]
      rw [hval]
      refine ⟨?_, ?_, ?_⟩
      · intro cap hcap
        have h1 := hm.1 cap hcap
        have hst1 : st1.optAlloc = some cap := h1.2 st1 tr1 rfl
        have hc2 : countReserves tr2 = 0 := (hc.1 cap hst1).1
        have hc1 : countReserves tr1 = 0 := h1.1
        refine ⟨?_, fun st' tr' h => by simp at h⟩
        show countReserves (tr1 ++ tr2) = 0
        rw [countReserves_append]
        omega
      · show countReserves (tr1 ++ tr2) ≤ 1
        rw [countReserves_append]
        cases hoa1 : st1.optAlloc with
        | some cap1 =>
          have hc2 : countReserves tr2 = 0 := (hc.1 cap1 hoa1).1
          have hc1 : countReserves tr1 ≤ 1 := hm.2.1
          omega
        | none =>
          have h0 := hm.2.2 st1 tr1 rfl hoa1
          have hc2 : countReserves tr2 ≤ 1 := hc.2.1
          omega
      · intro st' tr' h
        simp at h
    | ok st2 tr2 =>
      rw [hr2] at hc
      have hval : updateCore cfg c st p g mb ref
          = .ok st2 (tr1 ++ (tr2 ++ updateTail cfg c (st2.pm.getD (BufRef.ext 0))
              (st2.gd.getD (BufRef.ext 0)) (st2.avg.getD (BufRef.ext 0))
              p.tid g.tid mb ref)) := by
        unfold updateCore
        rw [hr1, andThen_ok_eval, hr2, andThen_ok_eval]
      rw [hval]
      refine ⟨?_, ?_, ?_⟩
      · intro cap hcap
        have h1 := hm.1 cap hcap
        have hst1 : st1.optAlloc = some cap := h1.2 st1 tr1 rfl
        have h2 := hc.1 cap hst1
        have hc1 : countReserves tr1 = 0 := h1.1
        have hc2 : countReserves tr2 = 0 := h2.1
        refine ⟨?_, ?_⟩
        · show countReserves (tr1 ++ (tr2 ++ _)) = 0
          rw [countReserves_append, countReserves_append, countReserves_updateTail]
          omega
        · intro st' tr h
          simp only [URes.ok.injEq] at h
          rw [← h.1]
          exact h2.2 st2 tr2 rfl
      · show countReserves (tr1 ++ (tr2 ++ _)) ≤ 1
        rw [countReserves_append, countReserves_append, countReserves_updateTail]
        cases hoa1 : st1.optAlloc with
        | some cap1 =>
          have hc2 : countReserves tr2 = 0 := (hc.1 cap1 hoa1).1
          have hc1 : countReserves tr1 ≤ 1 := hm.2.1
          omega
        | none =>
          have h0 := hm.2.2 st1 tr1 rfl hoa1
          have hc2 : countReserves tr2 ≤ 1 := hc.2.1
          omega
      · intro st' tr h hnone
        simp only [URes.ok.injEq] at h
        have hst2 : st2.optAlloc = none := by rw [h.1]; exact hnone
        have hcc := hc.2.2 st2 tr2 rfl hst2
        have hmm := hm.2.2 st1 tr1 rfl hcc.1
        refine ⟨hmm.1, ?_⟩
        rw [← h.2]
        rw [countReserves_append, countReserves_append, countReserves_updateTail]
        have e1 := hmm.2
        have e2 := hcc.2
        omega

theorem optimizerUpdate_reserves (cfg : OConfig) (st : OState) (p g : TensorDesc)
    (mb : Nat) :
    (∀ cap, st.optAlloc = some cap →
      countReserves (uresTrace (optimizerUpdate cfg st p g mb)) = 0
      ∧ (∀ st' tr, optimizerUpdate cfg st p g mb = .ok st' tr → st'.optAlloc = some cap))
    ∧ countReserves (uresTrace (optimizerUpdate cfg st p g mb)) ≤ 1
    ∧ (∀ st' tr, optimizerUpdate cfg st p g mb = .ok st' tr → st'.optAlloc = none →
        st.optAlloc = none ∧ countReserves tr = 0) := by
  by_cases habort : cfg.refMBWordsParam ≠ 0 ∧ mb = mbSizeNotProvided
  · have hval : optimizerUpdate cfg st p g mb
        = .abort "Using rational optimizer auto-adjustment with trainer that does not provide MB size" [] := by
      unfold optimizerUpdate
      rw [if_pos habort]
    rw [hval]
    refine ⟨?_, ?_, ?_⟩
    · intro cap hcap
      exact ⟨by simp [uresTrace, countReserves], fun st' tr h => by simp at h⟩
    · simp [uresTrace, countReserves]
    · intro st' tr h
      simp at h
  · have hval : optimizerUpdate cfg st p g mb
        = updateCore cfg (if p.ty = cfg.optimizerType then false else true) st p g
            (if cfg.refMBWordsParam = 0 then 1 else mb)
            (if cfg.refMBWordsParam = 0 then 1 else cfg.refMBWordsParam) := by
      unfold optimizerUpdate
      rw [if_neg habort]
    rw [hval]
    exact updateCore_reserves cfg _ st p g _ _

theorem runUpdates_reserves (cfg : OConfig) : ∀ (calls : List CallArgs) (st : OState),
    countReserves (uresTrace (runUpdates cfg st calls)) ≤ 1
    ∧ (∀ cap, st.optAlloc = some cap →
        countReserves (uresTrace (runUpdates cfg st calls)) = 0) := by
  intro calls
  induction calls with
  | nil =>
    intro st
    exact ⟨by simp [runUpdates, uresTrace, countReserves],
      fun cap hcap => by simp [runUpdates, uresTrace, countReserves]⟩
  | cons cc cs ih =>
    intro st
    have hu := optimizerUpdate_reserves cfg st cc.params cc.grads cc.mbSize
    cases hr : optimizerUpdate cfg st cc.params cc.grads cc.mbSize with
    | abort m tr =>
      rw [hr] at hu
      have hval : runUpdates cfg st (cc :: cs) = .abort m tr := by
        show andThen (optimizerUpdate cfg st cc.params cc.grads cc.mbSize) _ = _
        rw [hr, andThen_abort_eval]
      rw [hval]
      exact ⟨hu.2.1, fun cap hcap => (hu.1 cap hcap).1⟩
    | ok st1 tr1 =>
      rw [hr] at hu
      have htr : uresTrace (runUpdates cfg st (cc :: cs))
          = tr1 ++ uresTrace (runUpdates cfg st1 cs) := by
        show uresTrace (andThen (optimizerUpdate cfg st cc.params cc.grads cc.mbSize) _) = _
        rw [hr, andThen_ok_eval]
        cases h2 : runUpdates cfg st1 cs <;> simp [h2, uresTrace]
      constructor
      · rw [htr, countReserves_append]
        cases hoa1 : st1.optAlloc with
        | some cap1 =>
          have h2 := (ih st1).2 cap1 hoa1
          have h1le : countReserves tr1 ≤ 1 := hu.2.1
          omega
        | none =>
          have h0 := hu.2.2 st1 tr1 rfl hoa1
          have h2 := (ih st1).1
          omega
      · intro cap hcap
        rw [htr, countReserves_append]
        have h1 := hu.1 cap hcap
        have hc1 : countReserves tr1 = 0 := h1.1
        have hst1 : st1.optAlloc = some cap := h1.2 st1 tr1 rfl
        have h2 := (ih st1).2 cap hst1
        omega

/-- Configuration for the regime-change scenario: no auto-adjustment,
smoothing enabled, no cost scaling, no clipper, float32 optimizer type. -/
def cfgC2 : OConfig := ⟨0, true, 1, false, .float32⟩

/-- First call: float32 parameters — no casting, so the arena is reserved for
the average-only regime (1 shard). -/
def callC2a : CallArgs := ⟨⟨1, .float32, 4⟩, ⟨2, .float32, 4⟩, 1⟩

/-- Second call: float16 parameters — casting required, i.e. an allocation
regime (3 shards) different from the one the arena was reserved for. -/
def callC2b : CallArgs := ⟨⟨3, .float16, 4⟩, ⟨4, .float16, 4⟩, 1⟩

/-- C2 counterexample: a second `update()` call whose casting configuration
requires a different allocation regime (cast, 3 shards) than the arena was
reserved for (no-cast with averaging, 1 shard) completes normally — no
invariant violation is reported — while the arena is reserved only once; the
call silently reuses the previously assigned `pm_`/`gd_` buffers.  This
refutes the claim that such a call "causes a reported invariant
violation". -/
theorem arena_regime_change_unreported :
    callC2a.params.ty = cfgC2.optimizerType
    ∧ callC2b.params.ty ≠ cfgC2.optimizerType
    ∧ uresOk (runUpdates cfgC2 initOState [callC2a, callC2b]) = true
    ∧ countReserves (uresTrace (runUpdates cfgC2 initOState [callC2a, callC2b])) = 1 := by
  refine ⟨rfl, by decide, by decide, by decide⟩

/-- C2 (amended): for every optimizer, the shadow arena is reserved at most
once across any sequence of `update()` calls (every reservation is guarded by
the arena being null, and a call entered with a reserved arena reserves
nothing); a later call whose casting/averaging configuration requires a
different allocation regime does not re-allocate the arena and proceeds
without any reported invariant violation (shown by the concrete
regime-changing run, which completes normally). -/
theorem arena_reserved_at_most_once :
    (∀ (cfg : OConfig) (calls : List CallArgs),
      countReserves (uresTrace (runUpdates cfg initOState calls)) ≤ 1)
    ∧ (∀ (cfg : OConfig) (st : OState) (cap : Nat) (p g : TensorDesc) (mb : Nat),
        st.optAlloc = some cap →
        countReserves (uresTrace (optimizerUpdate cfg st p g mb)) = 0)
    ∧ uresOk (runUpdates cfgC2 initOState [callC2a, callC2b]) = true := by
  refine ⟨?_, ?_, by decide⟩
  · intro cfg calls
    exact (runUpdates_reserves cfg calls initOState).1
  · intro cfg st cap p g mb hcap
    exact ((optimizerUpdate_reserves cfg st p g mb).1 cap hcap).1

/-- C2 witness: a call on an optimizer whose arena is already reserved emits
no reservation. -/
theorem arena_reserved_at_most_once_witness :
    countReserves (uresTrace (optimizerUpdate cfgC2 ⟨some 16, 16, none, none, none⟩
      ⟨1, .float32, 1⟩ ⟨2, .float32, 1⟩ 1)) = 0 :=
  arena_reserved_at_most_once.2.1 cfgC2 ⟨some 16, 16, none, none, none⟩ 16
    ⟨1, .float32, 1⟩ ⟨2, .float32, 1⟩ 1 rfl

/-! ## Update-call sequencing (C6) -/

theorem mvAvgAlloc_first (cap bytes : Nat) (hle : bytes ≤ cap) :
    mvAvgAlloc cap bytes initOState
      = .ok ⟨some cap, bytes, some (BufRef.arena 0), none, none⟩
          [UEvent.reserve cap, UEvent.allocAvg (BufRef.arena 0)] := by
  unfold mvAvgAlloc arenaAllocate
  simp [initOState, hle]

theorem castAlloc_first (bytes pid gid : Nat) (sR : OState) (trR : List UEvent)
    (cap : Nat) (hoa : sR.optAlloc = some cap)
    (h1 : sR.allocUsed + bytes ≤ cap) (h2 : sR.allocUsed + bytes + bytes ≤ cap) :
    castAlloc bytes pid gid sR trR
      = .ok ⟨sR.optAlloc, sR.allocUsed + bytes + bytes, sR.avg,
              some (BufRef.arena sR.allocUsed),
              some (BufRef.arena (sR.allocUsed + bytes))⟩
          (trR ++ [UEvent.allocPm (BufRef.arena sR.allocUsed),
                   UEvent.allocGd (BufRef.arena (sR.allocUsed + bytes)),
                   UEvent.copyCastPmInit (BufRef.arena sR.allocUsed) pid,
                   UEvent.copyCastGd (BufRef.arena (sR.allocUsed + bytes)) gid]) := by
  unfold castAlloc arenaAllocate
  rw [hoa]
  simp only [h1, if_true]
  simp [h2]

theorem castBlockCore_first (bytes pid gid : Nat) (sR : OState) (trR : List UEvent)
    (hpm : sR.pm = none) :
    castBlockCore bytes pid gid sR trR = castAlloc bytes pid gid sR trR := by
  unfold castBlockCore
  simp [hpm]

theorem castBlockCore_resume (bytes pid gid : Nat) (sR : OState) (trR : List UEvent)
    (x : BufRef) (hpm : sR.pm = some x) :
    castBlockCore bytes pid gid sR trR
      = .ok sR (trR ++ [UEvent.copyCastGd (sR.gd.getD (BufRef.ext 0)) gid]) := by
  unfold castBlockCore
  simp [hpm]

theorem mvAvgBlock_eval_alloc_cast (cfg : OConfig) (e : Nat) (st : OState)
    (h1 : st.optAlloc = none) (h2 : cfg.mvAvg = true) :
    mvAvgBlock cfg e true st
      = mvAvgAlloc (3 * e * sizeOfTy cfg.optimizerType) (e * sizeOfTy cfg.optimizerType) st := by
  rw [mvAvgBlock_eval_alloc cfg e true st h1 h2]
  norm_num

/-- C6: with a clipper configured, a full-featured `update()` call (casting,
cost-scaling, clipping, averaging) performs exactly the sequence: allocate
(first call only: reserve, carve `avg_`, carve `pm_`/`gd_`), cast parameters
and gradients into optimizer precision, reverse cost-scaling on the cast
gradient buffer, clip the ORIGINAL gradient tensor (not the cast buffer —
the clip target is the external gradient tensor, distinct from the arena
buffer `gd_`), run the update rule on the cast/scaled buffers `pm_`/`gd_`,
update the moving average, cast back, synchronize; a second call performs the
same tail without any allocation. -/
theorem update_sequence_with_clipper
    (cfg : OConfig) (p g p2 g2 : TensorDesc) (mb mb2 : Nat)
    (href : cfg.refMBWordsParam = 0) (havg : cfg.mvAvg = true)
    (hscale : cfg.costScale ≠ 1) (hclip : cfg.hasClipper = true)
    (hcast : ¬ p.ty = cfg.optimizerType) (hcast2 : ¬ p2.ty = cfg.optimizerType) :
    ∃ cap avgR pmR gdR st1,
      optimizerUpdate cfg initOState p g mb
        = .ok st1 [UEvent.reserve cap, UEvent.allocAvg avgR, UEvent.allocPm pmR,
            UEvent.allocGd gdR, UEvent.copyCastPmInit pmR p.tid, UEvent.copyCastGd gdR g.tid,
            UEvent.scale gdR, UEvent.clip (BufRef.ext g.tid),
            UEvent.runUpdate pmR gdR 1 1, UEvent.updateAvg avgR,
            UEvent.castBack p.tid pmR, UEvent.sync]
      ∧ BufRef.ext g.tid ≠ gdR
      ∧ optimizerUpdate cfg st1 p2 g2 mb2
        = .ok st1 [UEvent.copyCastGd gdR g2.tid, UEvent.scale gdR,
            UEvent.clip (BufRef.ext g2.tid), UEvent.runUpdate pmR gdR 1 1,
            UEvent.updateAvg avgR, UEvent.castBack p2.tid pmR, UEvent.sync] := by
  have hco : (if p.ty = cfg.optimizerType then false else true) = true := by
    rw [if_neg hcast]
  have hco2 : (if p2.ty = cfg.optimizerType then false else true) = true := by
    rw [if_neg hcast2]
  have hcond : ¬ (cfg.refMBWordsParam ≠ 0 ∧ mb = mbSizeNotProvided) := by simp [href]
  have hcond2 : ¬ (cfg.refMBWordsParam ≠ 0 ∧ mb2 = mbSizeNotProvided) := by simp [href]
  have hrw1 : optimizerUpdate cfg initOState p g mb
      = updateCore cfg true initOState p g 1 1 := by
    unfold optimizerUpdate
    rw [if_neg hcond, hco]
    simp [href]
  have hb3 : p.size * sizeOfTy cfg.optimizerType + p.size * sizeOfTy cfg.optimizerType
      + p.size * sizeOfTy cfg.optimizerType = 3 * p.size * sizeOfTy cfg.optimizerType := by
    ring
  have hle1 : p.size * sizeOfTy cfg.optimizerType ≤ 3 * p.size * sizeOfTy cfg.optimizerType := by
    rw [← hb3]
    exact Nat.le_add_left _ _
  have hle2 : p.size * sizeOfTy cfg.optimizerType + p.size * sizeOfTy cfg.optimizerType
      ≤ 3 * p.size * sizeOfTy cfg.optimizerType := by
    rw [← hb3]
    exact Nat.le_add_right _ _
  have hle3 : p.size * sizeOfTy cfg.optimizerType + p.size * sizeOfTy cfg.optimizerType
      + p.size * sizeOfTy cfg.optimizerType ≤ 3 * p.size * sizeOfTy cfg.optimizerType :=
    le_of_eq hb3
  refine ⟨3 * p.size * sizeOfTy cfg.optimizerType, BufRef.arena 0,
    BufRef.arena (p.size * sizeOfTy cfg.optimizerType),
    BufRef.arena (p.size * sizeOfTy cfg.optimizerType + p.size * sizeOfTy cfg.optimizerType),
    ⟨some (3 * p.size * sizeOfTy cfg.optimizerType),
     p.size * sizeOfTy cfg.optimizerType + p.size * sizeOfTy cfg.optimizerType
       + p.size * sizeOfTy cfg.optimizerType,
     some (BufRef.arena 0),
     some (BufRef.arena (p.size * sizeOfTy cfg.optimizerType)),
     some (BufRef.arena (p.size * sizeOfTy cfg.optimizerType + p.size * sizeOfTy cfg.optimizerType))⟩,
    ?_, ?_, ?_⟩
  · rw [hrw1]
    unfold updateCore
    rw [mvAvgBlock_eval_alloc_cast cfg p.size initOState rfl havg,
      mvAvgAlloc_first _ _ hle1, andThen_ok_eval,
      castBlock_eval_some cfg p.size p g _ _ rfl,
      castBlockCore_first _ _ _ _ _ rfl,
      castAlloc_first _ _ _ _ _ _ rfl hle2 hle3, andThen_ok_eval]
    unfold updateTail
    simp [hscale, hclip, havg]
  · simp
  · have hrw2 : optimizerUpdate cfg
        ⟨some (3 * p.size * sizeOfTy cfg.optimizerType),
         p.size * sizeOfTy cfg.optimizerType + p.size * sizeOfTy cfg.optimizerType
           + p.size * sizeOfTy cfg.optimizerType,
         some (BufRef.arena 0),
         some (BufRef.arena (p.size * sizeOfTy cfg.optimizerType)),
         some (BufRef.arena (p.size * sizeOfTy cfg.optimizerType
           + p.size * sizeOfTy cfg.optimizerType))⟩ p2 g2 mb2
        = updateCore cfg true
            ⟨some (3 * p.size * sizeOfTy cfg.optimizerType),
             p.size * sizeOfTy cfg.optimizerType + p.size * sizeOfTy cfg.optimizerType
               + p.size * sizeOfTy cfg.optimizerType,
             some (BufRef.arena 0),
             some (BufRef.arena (p.size * sizeOfTy cfg.optimizerType)),
             some (BufRef.arena (p.size * sizeOfTy cfg.optimizerType
               + p.size * sizeOfTy cfg.optimizerType))⟩ p2 g2 1 1 := by
      unfold optimizerUpdate
      rw [if_neg hcond2, hco2]
      simp [href]
    rw [hrw2]
    unfold updateCore
    rw [mvAvgBlock_eval_some cfg p2.size true _ _ rfl, andThen_ok_eval,
      castBlock_eval_some cfg p2.size p2 g2 _ _ rfl,
      castBlockCore_resume _ _ _ _ _
        (BufRef.arena (p.size * sizeOfTy cfg.optimizerType)) rfl,
      andThen_ok_eval]
    unfold updateTail
    simp [hscale, hclip, havg]

/-- C6 witness: the full sequence at a concrete configuration (cost scale 2,
clipper on, averaging on, float16 model against a float32 optimizer). -/
theorem update_sequence_with_clipper_witness :
    ∃ cap avgR pmR gdR st1,
      optimizerUpdate ⟨0, true, 2, true, .float32⟩ initOState
          ⟨1, .float16, 1⟩ ⟨2, .float16, 1⟩ 7
        = .ok st1 [UEvent.reserve cap, UEvent.allocAvg avgR, UEvent.allocPm pmR,
            UEvent.allocGd gdR, UEvent.copyCastPmInit pmR 1, UEvent.copyCastGd gdR 2,
            UEvent.scale gdR, UEvent.clip (BufRef.ext 2),
            UEvent.runUpdate pmR gdR 1 1, UEvent.updateAvg avgR,
            UEvent.castBack 1 pmR, UEvent.sync]
      ∧ BufRef.ext 2 ≠ gdR
      ∧ optimizerUpdate ⟨0, true, 2, true, .float32⟩ st1 ⟨3, .float16, 1⟩ ⟨4, .float16, 1⟩ 8
        = .ok st1 [UEvent.copyCastGd gdR 4, UEvent.scale gdR,
            UEvent.clip (BufRef.ext 4), UEvent.runUpdate pmR gdR 1 1,
            UEvent.updateAvg avgR, UEvent.castBack 3 pmR, UEvent.sync] :=
  update_sequence_with_clipper ⟨0, true, 2, true, .float32⟩ ⟨1, .float16, 1⟩
    ⟨2, .float16, 1⟩ ⟨3, .float16, 1⟩ ⟨4, .float16, 1⟩ 7 8 rfl rfl (by norm_num) rfl
    (by decide) (by decide)
